/-
Verification of the speaker-identification service (speaker_service.py).

Embeddings are modelled as vectors in a real inner product space; the
floating-point arithmetic of the source is idealized over ℝ.  The mutable
module-level state of the service (profile dict, on-disk profile files,
owner-bootstrap state, unknown-speaker cache and counter) is modelled as an
explicit record threaded through the operations.  Python dicts are modelled
as insertion-ordered association lists with in-place update, matching dict
iteration semantics.
-/
import Mathlib

open scoped RealInnerProductSpace

noncomputable section

namespace SpeakerService

/-! ### Configuration constants (the environment-variable defaults) -/

def SIMILARITY_THRESHOLD : ℝ := 0.70

def AUTO_ENROLL_THRESHOLD : ℝ := 0.65

def OWNER_NAME : String := "Pablo"

def OWNER_ENROLL_SAMPLES : Nat := 3

def UNKNOWN_ENROLL_SAMPLES : Nat := 3

/-! ### Association-list model of Python dicts

`upsert` models `d[k] = v`: it replaces the value at the first occurrence of
the key (keeping its position, as Python dicts do) or appends a new entry.
`removeKey` models `d.pop(k)` / file removal; `lookupKey` models `d.get(k)`;
`hasKey` models `k in d`. -/

variable {V : Type*}

def lookupKey (l : List (String × V)) (k : String) : Option V :=
  match l with
  | [] => none
  | (k', v) :: rest => if k' = k then some v else lookupKey rest k

def hasKey (l : List (String × V)) (k : String) : Bool :=
  (lookupKey l k).isSome

def upsert (l : List (String × V)) (k : String) (v : V) : List (String × V) :=
  match l with
  | [] => [(k, v)]
  | (k', v') :: rest =>
    if k' = k then (k, v) :: rest else (k', v') :: upsert rest k v

def removeKey (l : List (String × V)) (k : String) : List (String × V) :=
  match l with
  | [] => []
  | (k', v') :: rest => if k' = k then rest else (k', v') :: removeKey rest k

/-- Python `l[-10:]` generalized: the last `n` elements of `l`. -/
def lastN (n : Nat) (l : List V) : List V :=
  l.drop (l.length - n)

variable [NormedAddCommGroup V] [InnerProductSpace ℝ V]

/-! ### VectorMath (`cosine_sim`, `average_embeddings`) -/

/-- Model of `cosine_sim(a, b)`: `np.dot(a, b) / (np.linalg.norm(a) * np.linalg.norm(b))`. -/
def cosine_sim (a b : V) : ℝ := ⟪a, b⟫ / (‖a‖ * ‖b‖)

/-- Model of `average_embeddings(embeddings)`: with a single element, that element
unchanged; otherwise the element-wise mean re-normalized to unit length. -/
def average_embeddings (l : List V) : V :=
  if l.length = 1 then l.head?.getD 0
  else
    let avg := ((l.length : ℝ))⁻¹ • l.sum
    ‖avg‖⁻¹ • avg

/-! ### Service state -/

/-- One entry of `unknown_cache`: `{ id, embeddings, count }`. -/
structure ClusterEntry (V : Type*) where
  id : String
  embeddings : List V
  count : Nat

/-- The module-level mutable state of the service, plus the on-disk profile
directory (`disk`, an association of profile name to the stored vector). -/
structure ServiceState (V : Type*) where
  profiles : List (String × V)
  disk : List (String × V)
  ownerEnrolled : Bool
  ownerSamples : List V
  unknownCounter : Nat
  unknownCache : List (ClusterEntry V)

/-- Cold-start state: nothing stored, owner not enrolled, no pending samples. -/
def initial_state : ServiceState V :=
  ⟨[], [], false, [], 0, []⟩

/-- Model of `load_profiles()`: populate the in-memory map from the profile directory;
the owner counts as enrolled iff a profile under the owner name was found.
Session-only state (bootstrap samples, cluster cache, counter) starts fresh. -/
def load_state (disk : List (String × V)) : ServiceState V :=
  ⟨disk, disk, hasKey disk OWNER_NAME, [], 0, []⟩

/-- Model of `save_profile(name, embedding)`: write the durable record and update the
in-memory map. -/
def save_profile (s : ServiceState V) (name : String) (e : V) : ServiceState V :=
  { s with profiles := upsert s.profiles name e, disk := upsert s.disk name e }

/-! ### `identify_speaker` -/

/-- Model of `identify_speaker(embedding)`: best-match scan over all profiles in
insertion order (`sim > best_sim` with `best_sim` starting at `0.0`), then
threshold test against `SIMILARITY_THRESHOLD`. -/
def identify_speaker (profiles : List (String × V)) (e : V) : Option String × ℝ :=
  if profiles.isEmpty then (none, 0)
  else
    let best := profiles.foldl
      (fun acc p => if acc.2 < cosine_sim e p.2 then (some p.1, cosine_sim e p.2) else acc)
      ((none : Option String), (0 : ℝ))
    if SIMILARITY_THRESHOLD ≤ best.2 then best else (none, best.2)

/-! ### `try_auto_enroll_owner` -/

/-- Model of `try_auto_enroll_owner(embedding)`: returns whether the embedding is
treated as the owner, together with the updated state. -/
def try_auto_enroll_owner (s : ServiceState V) (e : V) : Bool × ServiceState V :=
  if s.ownerEnrolled then (false, s)
  else if s.ownerSamples.isEmpty then (true, { s with ownerSamples := [e] })
  else
    if AUTO_ENROLL_THRESHOLD ≤ cosine_sim e (average_embeddings s.ownerSamples) then
      let samples := s.ownerSamples ++ [e]
      if OWNER_ENROLL_SAMPLES ≤ samples.length then
        (true, save_profile { s with ownerEnrolled := true, ownerSamples := [] }
          OWNER_NAME (average_embeddings samples))
      else (true, { s with ownerSamples := samples })
    else (false, s)

/-! ### `find_or_create_unknown` -/

/-- The update to the in-memory profile map performed when an embedding is
appended into the cluster `E` (promotion, rolling refresh, or nothing). -/
def scanProf (profiles : List (String × V)) (e : V) (E : ClusterEntry V) :
    List (String × V) :=
  if UNKNOWN_ENROLL_SAMPLES ≤ E.count + 1 ∧ hasKey profiles E.id = false then
    upsert profiles E.id (average_embeddings (E.embeddings ++ [e]))
  else if hasKey profiles E.id then
    upsert profiles E.id (average_embeddings (lastN 10 (E.embeddings ++ [e])))
  else profiles

/-- The update to the durable store performed when an embedding is appended
into the cluster `E` (only promotion writes to disk). -/
def scanDisk (profiles disk : List (String × V)) (e : V) (E : ClusterEntry V) :
    List (String × V) :=
  if UNKNOWN_ENROLL_SAMPLES ≤ E.count + 1 ∧ hasKey profiles E.id = false then
    upsert disk E.id (average_embeddings (E.embeddings ++ [e]))
  else disk

/-- The `for entry in unknown_cache` loop of `find_or_create_unknown`: scans
clusters in creation order, mutating the first one whose running average is
similar enough; returns the result together with the updated cache, profile
map and durable store, or `none` when no cluster matched. -/
def foc_scan (profiles disk : List (String × V)) (e : V) :
    List (ClusterEntry V) →
      Option ((String × ℝ) × List (ClusterEntry V) × List (String × V) × List (String × V))
  | [] => none
  | E :: rest =>
    if AUTO_ENROLL_THRESHOLD ≤ cosine_sim e (average_embeddings E.embeddings) then
      some ((E.id, cosine_sim e (average_embeddings E.embeddings)),
        (⟨E.id, E.embeddings ++ [e], E.count + 1⟩ : ClusterEntry V) :: rest,
        scanProf profiles e E, scanDisk profiles disk e E)
    else
      match foc_scan profiles disk e rest with
      | some (r, rest', p, d) => some (r, E :: rest', p, d)
      | none => none

/-- Model of `find_or_create_unknown(embedding)`: match against existing unknown
clusters, else allocate `Speaker_<counter+1>` with the embedding as sole
member and report similarity `0.0`. -/
def find_or_create_unknown (s : ServiceState V) (e : V) : (String × ℝ) × ServiceState V :=
  match foc_scan s.profiles s.disk e s.unknownCache with
  | some (r, cache', p, d) =>
    (r, { s with profiles := p, disk := d, unknownCache := cache' })
  | none =>
    let uid := "Speaker_" ++ toString (s.unknownCounter + 1)
    ((uid, 0),
      { s with unknownCounter := s.unknownCounter + 1,
               unknownCache := s.unknownCache ++ [⟨uid, [e], 1⟩] })

/-- Model of `reset_all()`: clear profiles (memory and disk), bootstrap state, the
unknown cache and the unknown counter. -/
def reset_all (_s : ServiceState V) : ServiceState V :=
  initial_state

/-! ### The `/identify` endpoint -/

/-- Which branch of the `/identify` handler produced the response. -/
inductive RespPath : Type
  | errorPath : RespPath
  | bootstrap : RespPath
  | profileMatch : RespPath
  | unknownPath : RespPath
deriving DecidableEq

/-- The JSON response of `/identify` (fields the handler does not emit on a
given branch keep their defaults). -/
structure IdentifyResponse where
  speaker : Option String := none
  similarity : ℝ := 0
  known : Bool := false
  autoEnrolling : Bool := false
  hasProfiles : Bool := false
  samples : Nat := 0
  needed : Nat := 0
  errorMsg : Option String := none
  path : RespPath := .errorPath

/-- Steps 2 and 3 of the `/identify` handler: profile matching, falling
through to unknown-cluster tracking.  The unknown-path response reports
`sim`, the best known-profile similarity of step 2. -/
def identify_step2 (s : ServiceState V) (e : V) (hasProfiles : Bool) :
    IdentifyResponse × ServiceState V :=
  let ns := identify_speaker s.profiles e
  match ns.1 with
  | some name =>
    ({ speaker := some name, similarity := ns.2, known := true, hasProfiles := true,
       path := .profileMatch }, s)
  | none =>
    let r := find_or_create_unknown s e
    ({ speaker := some r.1.1, similarity := ns.2, known := false,
       hasProfiles := hasProfiles, path := .unknownPath }, r.2)

/-- The `/identify` handler.  `none` models `get_embedding` returning `None`
(audio shorter than the minimum usable duration). -/
def identify (s : ServiceState V) (eo : Option V) : IdentifyResponse × ServiceState V :=
  match eo with
  | none => ({ errorMsg := some "Audio too short", path := .errorPath }, s)
  | some e =>
    let hasProfiles := !s.profiles.isEmpty
    if s.ownerEnrolled then identify_step2 s e hasProfiles
    else
      let p := try_auto_enroll_owner s e
      if p.1 then
        ({ speaker := some OWNER_NAME, similarity := 1, known := true,
           autoEnrolling := true, hasProfiles := true,
           samples := p.2.ownerSamples.length, needed := OWNER_ENROLL_SAMPLES,
           path := .bootstrap }, p.2)
      else identify_step2 p.2 e hasProfiles

/-! ### `/enroll` and `/rename` -/

/-- The `/enroll` handler body after header validation. -/
def enroll_op (s : ServiceState V) (name : String) (e : V) : ServiceState V :=
  save_profile s name e

/-- The `for entry in unknown_cache ... break` loop of `/rename`: find the
first cluster whose id equals `old`, returning it (pre-rename) together with
the cache in which that entry's id has been set to `new`. -/
def renameInCache (old new : String) :
    List (ClusterEntry V) → Option (ClusterEntry V × List (ClusterEntry V))
  | [] => none
  | E :: rest =>
    if E.id = old then some (E, (⟨new, E.embeddings, E.count⟩ : ClusterEntry V) :: rest)
    else
      match renameInCache old new rest with
      | some (F, rest') => some (F, E :: rest')
      | none => none

inductive RenameOutcome : Type
  | renamed : RenameOutcome
  | notFound : RenameOutcome
deriving DecidableEq

/-- The `/rename` handler body after header validation: move a stored profile
from `old` to `new`; else promote the first unknown cluster whose id is
`old` under the name `new`; else fail with not-found and change nothing. -/
def rename_op (s : ServiceState V) (old new : String) : RenameOutcome × ServiceState V :=
  match lookupKey s.profiles old with
  | some emb =>
    (.renamed,
      save_profile
        { s with profiles := removeKey s.profiles old, disk := removeKey s.disk old }
        new emb)
  | none =>
    match renameInCache old new s.unknownCache with
    | some (E, cache') =>
      (.renamed,
        save_profile { s with unknownCache := cache' } new (average_embeddings E.embeddings))
    | none => (.notFound, s)

/-! ### Basic facts about cosine similarity -/

theorem cosine_sim_self (a : V) (h : a ≠ 0) : cosine_sim a a = 1 := by
  have hn : (0 : ℝ) < ‖a‖ := norm_pos_iff.mpr h
  rw [cosine_sim, real_inner_self_eq_norm_mul_norm]
  exact div_self (by positivity)

theorem cosine_sim_comm (a b : V) : cosine_sim a b = cosine_sim b a := by
  rw [cosine_sim, cosine_sim, real_inner_comm, mul_comm]

theorem cosine_sim_neg_left (a b : V) : cosine_sim (-a) b = -cosine_sim a b := by
  rw [cosine_sim, cosine_sim, inner_neg_left, norm_neg, neg_div]

theorem cosine_sim_neg_right (a b : V) : cosine_sim a (-b) = -cosine_sim a b := by
  rw [cosine_sim, cosine_sim, inner_neg_right, norm_neg, neg_div]

theorem cosine_sim_le_one (a b : V) : cosine_sim a b ≤ 1 := by
  rcases eq_or_ne a 0 with ha | ha
  · simp [cosine_sim, ha]
  rcases eq_or_ne b 0 with hb | hb
  · simp [cosine_sim, hb]
  have hna : (0 : ℝ) < ‖a‖ := norm_pos_iff.mpr ha
  have hnb : (0 : ℝ) < ‖b‖ := norm_pos_iff.mpr hb
  rw [cosine_sim, div_le_one (by positivity)]
  exact real_inner_le_norm a b

theorem cosine_sim_smul_right (a b : V) {c : ℝ} (hc : 0 < c) :
    cosine_sim a (c • b) = cosine_sim a b := by
  rw [cosine_sim, cosine_sim, real_inner_smul_right, norm_smul, Real.norm_eq_abs,
    abs_of_pos hc, show ‖a‖ * (c * ‖b‖) = c * (‖a‖ * ‖b‖) by ring,
    mul_div_mul_left _ _ (ne_of_gt hc)]

theorem list_norm_sum_le (l : List V) : ‖l.sum‖ ≤ (l.map (fun v => ‖v‖)).sum := by
  induction l with
  | nil => simp
  | cons v t ih =>
    simp only [List.sum_cons, List.map_cons]
    exact le_trans (norm_add_le v t.sum) (by linarith)

theorem list_sum_norm_nonneg (l : List V) : 0 ≤ (l.map (fun v => ‖v‖)).sum := by
  induction l with
  | nil => simp
  | cons v t ih =>
    simp only [List.map_cons, List.sum_cons]
    have := norm_nonneg v
    linarith

/-- Lower bound on the inner product of `w` with a list sum, from pointwise
cosine-similarity lower bounds. -/
theorem inner_list_sum_ge (w : V) (l : List V) {θ : ℝ} (hθ : 0 ≤ θ) (hw : w ≠ 0)
    (h : ∀ v ∈ l, v ≠ 0 ∧ θ ≤ cosine_sim w v) :
    θ * (‖w‖ * (l.map (fun v => ‖v‖)).sum) ≤ ⟪w, l.sum⟫ := by
  induction l with
  | nil => simp
  | cons v t ih =>
    have hv := h v (List.mem_cons_self v t)
    have hrest : θ * (‖w‖ * (t.map (fun v => ‖v‖)).sum) ≤ ⟪w, t.sum⟫ :=
      ih (fun u hu => h u (List.mem_cons_of_mem v hu))
    have hnw : (0 : ℝ) < ‖w‖ := norm_pos_iff.mpr hw
    have hnv : (0 : ℝ) < ‖v‖ := norm_pos_iff.mpr hv.1
    have hhead : θ * (‖w‖ * ‖v‖) ≤ ⟪w, v⟫ := by
      have h2 : θ ≤ ⟪w, v⟫ / (‖w‖ * ‖v‖) := hv.2
      exact (le_div_iff₀ (by positivity)).mp h2
    simp only [List.sum_cons, List.map_cons, inner_add_right]
    nlinarith [hhead, hrest]

/-- Main bootstrap-consistency bound: if `w` has cosine similarity at least
`θ > 0` with every member of a nonempty list, the same holds against the
list's sum (and the sum is nonzero). -/
theorem cosine_sim_list_sum_ge (w : V) (l : List V) {θ : ℝ} (hθ : 0 < θ) (hw : w ≠ 0)
    (hl : l ≠ []) (h : ∀ v ∈ l, v ≠ 0 ∧ θ ≤ cosine_sim w v) :
    θ ≤ cosine_sim w l.sum ∧ l.sum ≠ 0 := by
  have hnw : (0 : ℝ) < ‖w‖ := norm_pos_iff.mpr hw
  have hS : (0 : ℝ) < (l.map (fun v => ‖v‖)).sum := by
    rcases l with _ | ⟨v, t⟩
    · exact absurd rfl hl
    · have hv := (h v (List.mem_cons_self v t)).1
      have hnv : (0 : ℝ) < ‖v‖ := norm_pos_iff.mpr hv
      have := list_sum_norm_nonneg (V := V) t
      simp only [List.map_cons, List.sum_cons]
      linarith
  have hD : θ * (‖w‖ * (l.map (fun v => ‖v‖)).sum) ≤ ⟪w, l.sum⟫ :=
    inner_list_sum_ge w l (le_of_lt hθ) hw h
  have hDpos : (0 : ℝ) < ⟪w, l.sum⟫ := lt_of_lt_of_le (by positivity) hD
  have hsum : l.sum ≠ 0 := by
    intro h0
    rw [h0, inner_zero_right] at hDpos
    exact lt_irrefl 0 hDpos
  have hns : (0 : ℝ) < ‖l.sum‖ := norm_pos_iff.mpr hsum
  refine ⟨?_, hsum⟩
  rw [cosine_sim, le_div_iff (by positivity)]
  have hle : ‖l.sum‖ ≤ (l.map (fun v => ‖v‖)).sum := list_norm_sum_le l
  nlinarith [hD, hle]

/-- The same bound against `average_embeddings` (the running average the
service actually compares against). -/
theorem cosine_sim_average_ge (w : V) (l : List V) {θ : ℝ} (hθ : 0 < θ) (hw : w ≠ 0)
    (hl : l ≠ []) (h : ∀ v ∈ l, v ≠ 0 ∧ θ ≤ cosine_sim w v) :
    θ ≤ cosine_sim w (average_embeddings l) := by
  rcases l with _ | ⟨v, t⟩
  · exact absurd rfl hl
  rcases t with _ | ⟨v', t'⟩
  · have := (h v (List.mem_cons_self v [])).2
    simpa [average_embeddings] using this
  obtain ⟨hcos, hsum⟩ :=
    cosine_sim_list_sum_ge w (v :: v' :: t') hθ hw (by simp) h
  have hlen : (0 : ℝ) < ((v :: v' :: t').length : ℝ) := by
    exact_mod_cast Nat.succ_pos _
  have hx : ((((v :: v' :: t').length : ℝ))⁻¹ • (v :: v' :: t').sum : V) ≠ 0 :=
    smul_ne_zero (by positivity) hsum
  have hnx : (0 : ℝ) <
      ‖(((v :: v' :: t').length : ℝ))⁻¹ • (v :: v' :: t').sum‖ := norm_pos_iff.mpr hx
  have havg : average_embeddings (v :: v' :: t') =
      (‖(((v :: v' :: t').length : ℝ))⁻¹ • (v :: v' :: t').sum‖⁻¹ *
        (((v :: v' :: t').length : ℝ))⁻¹) • (v :: v' :: t').sum := by
    rw [average_embeddings, if_neg (by simp), smul_smul]
  rw [havg, cosine_sim_smul_right w _ (by positivity)]
  exact hcos

/-! ### Association-list lemmas -/

theorem lookup_upsert_self (l : List (String × V)) (k : String) (v : V) :
    lookupKey (upsert l k v) k = some v := by
  induction l with
  | nil => simp [upsert, lookupKey]
  | cons p rest ih =>
    by_cases h : p.1 = k
    · simp [upsert, h, lookupKey]
    · simp only [upsert]
      rw [if_neg h]
      simp only [lookupKey]
      rw [if_neg h]
      exact ih

theorem lookup_upsert_ne (l : List (String × V)) (k k' : String) (v : V) (h : k' ≠ k) :
    lookupKey (upsert l k v) k' = lookupKey l k' := by
  induction l with
  | nil => simp [upsert, lookupKey, Ne.symm h]
  | cons p rest ih =>
    by_cases hp : p.1 = k
    · simp only [upsert]
      rw [if_pos hp]
      simp only [lookupKey]
      rw [if_neg (fun h' => h h'.symm), if_neg (by rw [hp]; exact fun h' => h h'.symm)]
    · simp only [upsert]
      rw [if_neg hp]
      simp only [lookupKey]
      by_cases hp' : p.1 = k'
      · rw [if_pos hp', if_pos hp']
      · rw [if_neg hp', if_neg hp']
        exact ih

theorem upsert_ne_nil (l : List (String × V)) (k : String) (v : V) :
    upsert l k v ≠ [] := by
  cases l with
  | nil => simp [upsert]
  | cons p rest =>
    simp only [upsert]
    split <;> simp

theorem lookup_eq_none_of_not_mem (l : List (String × V)) (k : String)
    (h : k ∉ l.map Prod.fst) : lookupKey l k = none := by
  induction l with
  | nil => rfl
  | cons p rest ih =>
    simp only [List.map_cons, List.mem_cons] at h
    push_neg at h
    simp only [lookupKey]
    rw [if_neg (fun he => h.1 he.symm)]
    exact ih h.2

theorem lookup_removeKey_self (l : List (String × V)) (k : String)
    (hnd : (l.map Prod.fst).Nodup) : lookupKey (removeKey l k) k = none := by
  induction l with
  | nil => rfl
  | cons p rest ih =>
    simp only [List.map_cons, List.nodup_cons] at hnd
    by_cases hp : p.1 = k
    · simp only [removeKey]
      rw [if_pos hp]
      exact lookup_eq_none_of_not_mem rest k (hp ▸ hnd.1)
    · simp only [removeKey]
      rw [if_neg hp]
      simp only [lookupKey]
      rw [if_neg hp]
      exact ih hnd.2

theorem lookup_removeKey_ne (l : List (String × V)) (k k' : String) (h : k' ≠ k) :
    lookupKey (removeKey l k) k' = lookupKey l k' := by
  induction l with
  | nil => simp [removeKey]
  | cons p rest ih =>
    by_cases hp : p.1 = k
    · simp only [removeKey]
      rw [if_pos hp]
      simp only [lookupKey]
      rw [if_neg (by rw [hp]; exact fun h' => h h'.symm)]
    · simp only [removeKey]
      rw [if_neg hp]
      simp only [lookupKey]
      by_cases hp' : p.1 = k'
      · rw [if_pos hp', if_pos hp']
      · rw [if_neg hp', if_neg hp']
        exact ih

/-- Decomposition of `upsert`: the updated list is the entry `(k, v)` framed
by a prefix of untouched entries with other keys and an untouched suffix. -/
theorem upsert_decomp (l : List (String × V)) (k : String) (v : V) :
    ∃ l1 l2, upsert l k v = l1 ++ (k, v) :: l2 ∧ ∀ p ∈ l1, p.1 ≠ k ∧ p ∈ l := by
  induction l with
  | nil => exact ⟨[], [], rfl, by simp⟩
  | cons p rest ih =>
    by_cases hp : p.1 = k
    · refine ⟨[], rest, ?_, by simp⟩
      simp only [upsert]
      rw [if_pos hp]
      simp
    · obtain ⟨l1, l2, heq, hmem⟩ := ih
      refine ⟨p :: l1, l2, ?_, ?_⟩
      · simp only [upsert]
        rw [if_neg hp]
        simp [heq]
      · intro q hq
        rcases List.mem_cons.mp hq with hq | hq
        · exact ⟨hq ▸ hp, hq ▸ List.mem_cons_self p rest⟩
        · exact ⟨(hmem q hq).1, List.mem_cons_of_mem p (hmem q hq).2⟩

/-! ### Characterization of the unknown-cluster scan -/

/-- The Boolean test the scan applies to each cluster, in creation order. -/
def cluster_match (e : V) (E : ClusterEntry V) : Bool :=
  decide (AUTO_ENROLL_THRESHOLD ≤ cosine_sim e (average_embeddings E.embeddings))

theorem foc_scan_of_find_none (p d : List (String × V)) (e : V) (cache : List (ClusterEntry V))
    (h : cache.find? (cluster_match e) = none) : foc_scan p d e cache = none := by
  induction cache with
  | nil => rfl
  | cons E rest ih =>
    by_cases hE : cluster_match e E = true
    · rw [List.find?_cons_of_pos _ hE] at h; exact absurd h (by simp)
    · rw [List.find?_cons_of_neg _ hE] at h
      have hprop : ¬ AUTO_ENROLL_THRESHOLD ≤ cosine_sim e (average_embeddings E.embeddings) := by
        simpa [cluster_match] using hE
      simp only [foc_scan]
      rw [if_neg hprop, ih h]

theorem foc_scan_of_find_some (p d : List (String × V)) (e : V)
    (cache : List (ClusterEntry V)) (E : ClusterEntry V)
    (h : cache.find? (cluster_match e) = some E) :
    ∃ cache', foc_scan p d e cache =
      some ((E.id, cosine_sim e (average_embeddings E.embeddings)), cache',
        scanProf p e E, scanDisk p d e E) := by
  induction cache with
  | nil => simp at h
  | cons F rest ih =>
    by_cases hF : cluster_match e F = true
    · rw [List.find?_cons_of_pos _ hF] at h
      have hEF : F = E := by simpa using h
      subst hEF
      have hprop : AUTO_ENROLL_THRESHOLD ≤ cosine_sim e (average_embeddings F.embeddings) := by
        simpa [cluster_match] using hF
      refine ⟨(⟨F.id, F.embeddings ++ [e], F.count + 1⟩ : ClusterEntry V) :: rest, ?_⟩
      simp only [foc_scan]
      rw [if_pos hprop]
    · rw [List.find?_cons_of_neg _ hF] at h
      have hprop : ¬ AUTO_ENROLL_THRESHOLD ≤ cosine_sim e (average_embeddings F.embeddings) := by
        simpa [cluster_match] using hF
      obtain ⟨cache', hc⟩ := ih h
      refine ⟨F :: cache', ?_⟩
      simp only [foc_scan]
      rw [if_neg hprop, hc]

/-! ### Characterization of the rename cache scan -/

theorem renameInCache_of_find_none (old new : String) (cache : List (ClusterEntry V))
    (h : cache.find? (fun E => decide (E.id = old)) = none) :
    renameInCache old new cache = none := by
  induction cache with
  | nil => rfl
  | cons E rest ih =>
    by_cases hE : E.id = old
    · rw [List.find?_cons_of_pos _ (by simpa using hE)] at h; exact absurd h (by simp)
    · rw [List.find?_cons_of_neg _ (by simpa using hE)] at h
      simp only [renameInCache]
      rw [if_neg hE, ih h]

theorem renameInCache_of_find_some (old new : String) (cache : List (ClusterEntry V))
    (E : ClusterEntry V) (h : cache.find? (fun F => decide (F.id = old)) = some E) :
    ∃ cache', renameInCache old new cache = some (E, cache') := by
  induction cache with
  | nil => simp at h
  | cons F rest ih =>
    by_cases hF : F.id = old
    · rw [List.find?_cons_of_pos _ (by simpa using hF)] at h
      have hEF : F = E := by simpa using h
      subst hEF
      refine ⟨(⟨new, F.embeddings, F.count⟩ : ClusterEntry V) :: rest, ?_⟩
      simp only [renameInCache]
      rw [if_pos hF]
    · rw [List.find?_cons_of_neg _ (by simpa using hF)] at h
      obtain ⟨cache', hc⟩ := ih h
      refine ⟨F :: cache', ?_⟩
      simp only [renameInCache]
      rw [if_neg hF, hc]

/-! ### Lemmas about the bootstrap and the best-match fold -/

theorem try_auto_enroll_owner_false (s : ServiceState V) (e : V)
    (h : (try_auto_enroll_owner s e).1 = false) : (try_auto_enroll_owner s e).2 = s := by
  unfold try_auto_enroll_owner at h ⊢
  by_cases h1 : s.ownerEnrolled
  · rw [if_pos h1]
  · rw [if_neg h1] at h ⊢
    by_cases h2 : s.ownerSamples.isEmpty
    · rw [if_pos h2] at h
      simp at h
    · rw [if_neg h2] at h ⊢
      by_cases h3 : AUTO_ENROLL_THRESHOLD ≤ cosine_sim e (average_embeddings s.ownerSamples)
      · rw [if_pos h3] at h
        exfalso
        revert h
        simp only [apply_ite]
        split <;> simp
      · rw [if_neg h3]

/-- The best-match accumulator of `identify_speaker`. -/
def best_step (e : V) (acc : Option String × ℝ) (p : String × V) : Option String × ℝ :=
  if acc.2 < cosine_sim e p.2 then (some p.1, cosine_sim e p.2) else acc

theorem identify_speaker_eq_fold (profiles : List (String × V)) (e : V) :
    identify_speaker profiles e =
      if profiles.isEmpty then (none, 0)
      else
        if SIMILARITY_THRESHOLD ≤
            (profiles.foldl (best_step e) ((none : Option String), (0 : ℝ))).2 then
          profiles.foldl (best_step e) ((none : Option String), (0 : ℝ))
        else (none, (profiles.foldl (best_step e) ((none : Option String), (0 : ℝ))).2) := rfl

theorem best_fold_nonneg (e : V) (l : List (String × V)) (acc : Option String × ℝ)
    (h : 0 ≤ acc.2) : 0 ≤ (l.foldl (best_step e) acc).2 := by
  induction l generalizing acc with
  | nil => exact h
  | cons p t ih =>
    simp only [List.foldl_cons]
    by_cases hc : acc.2 < cosine_sim e p.2
    · exact ih _ (by simp only [best_step]; rw [if_pos hc]; exact le_of_lt (lt_of_le_of_lt h hc))
    · exact ih _ (by simp only [best_step]; rw [if_neg hc]; exact h)

theorem best_fold_of_nonpos (e : V) (l : List (String × V))
    (h : ∀ p ∈ l, cosine_sim e p.2 ≤ 0) :
    l.foldl (best_step e) ((none : Option String), (0 : ℝ)) = (none, 0) := by
  induction l with
  | nil => rfl
  | cons p t ih =>
    simp only [List.foldl_cons]
    have hp := h p (List.mem_cons_self p t)
    have : best_step e ((none : Option String), (0 : ℝ)) p = (none, 0) := by
      simp only [best_step]
      rw [if_neg (by simp; linarith)]
    rw [this]
    exact ih (fun q hq => h q (List.mem_cons_of_mem p hq))

theorem best_fold_lt_one (e : V) (l : List (String × V)) (acc : Option String × ℝ)
    (h : ∀ p ∈ l, cosine_sim e p.2 < 1) (hacc : acc.2 < 1) :
    (l.foldl (best_step e) acc).2 < 1 := by
  induction l generalizing acc with
  | nil => exact hacc
  | cons p t ih =>
    simp only [List.foldl_cons]
    refine ih _ (fun q hq => h q (List.mem_cons_of_mem p hq)) ?_
    simp only [best_step]
    by_cases hc : acc.2 < cosine_sim e p.2
    · rw [if_pos hc]; exact h p (List.mem_cons_self p t)
    · rw [if_neg hc]; exact hacc

theorem best_fold_stays_top (e : V) (l : List (String × V)) (nm : String)
    (hone : cosine_sim e e = 1) :
    l.foldl (best_step e) ((some nm : Option String), (1 : ℝ)) = (some nm, 1) := by
  induction l with
  | nil => rfl
  | cons p t ih =>
    simp only [List.foldl_cons]
    have : best_step e ((some nm : Option String), (1 : ℝ)) p = (some nm, 1) := by
      simp only [best_step]
      rw [if_neg (not_lt.mpr (cosine_sim_le_one e p.2))]
    rw [this]
    exact ih

/-! ### Claim theorems -/

/-- C4: when the embedding provider yields absent (audio below the minimum
usable duration), identify rejects the input: it returns an error result with
no speaker assignment and no component state changes; an absent embedding is
never classified as an unknown speaker. -/
theorem C4_absent_rejected_no_state_change (s : ServiceState V) :
    (identify s none).2 = s ∧
    (identify s none).1.speaker = none ∧
    (identify s none).1.errorMsg = some "Audio too short" ∧
    (identify s none).1.path = RespPath.errorPath :=
  ⟨rfl, rfl, rfl, rfl⟩

/-- C10: the best-similarity value returned by `identify_speaker` is always
nonnegative, and when every stored profile has non-positive cosine similarity
to the input, the function returns `(none, 0.0)` rather than the actual
(negative) best cosine value. -/
theorem C10_similarity_nonneg (profiles : List (String × V)) (e : V) :
    0 ≤ (identify_speaker profiles e).2 ∧
    ((∀ p ∈ profiles, cosine_sim e p.2 ≤ 0) → identify_speaker profiles e = (none, 0)) := by
  constructor
  · rw [identify_speaker_eq_fold]
    by_cases h : profiles.isEmpty
    · rw [if_pos h]
    · rw [if_neg h]
      have h0 : 0 ≤ (profiles.foldl (best_step e) ((none : Option String), (0 : ℝ))).2 :=
        best_fold_nonneg e profiles _ le_rfl
      split_ifs <;> simpa using h0
  · intro hall
    rw [identify_speaker_eq_fold]
    by_cases h : profiles.isEmpty
    · rw [if_pos h]
    · rw [if_neg h, best_fold_of_nonpos e profiles hall]
      rw [if_neg (by norm_num [SIMILARITY_THRESHOLD])]

/-- C10 witness: a store whose only profile points opposite to the input. -/
theorem C10_witness :
    (∀ p ∈ [("A", (-1 : ℝ))], cosine_sim (1 : ℝ) p.2 ≤ 0) ∧
    identify_speaker [("A", (-1 : ℝ))] (1 : ℝ) = (none, 0) := by
  have hneg : ∀ p ∈ [("A", (-1 : ℝ))], cosine_sim (1 : ℝ) p.2 ≤ 0 := by
    intro p hp
    simp only [List.mem_singleton] at hp
    subst hp
    rw [show ((-1 : ℝ)) = -(1 : ℝ) by norm_num, cosine_sim_neg_right,
      cosine_sim_self (1 : ℝ) one_ne_zero]
    norm_num
  exact ⟨hneg, (C10_similarity_nonneg [("A", (-1 : ℝ))] (1 : ℝ)).2 hneg⟩

/-- C2: unknown-cluster matching returns the first cluster in creation order
whose cosine similarity between the input and the running average of its
members meets the threshold (not the best-matching cluster), with that
similarity; if no cluster qualifies, a fresh sequential `Speaker_<n>` cluster
is allocated with the input as sole member and `(newId, 0.0)` is returned. -/
theorem C2_first_match_or_create (s : ServiceState V) (e : V) :
    (∀ E, s.unknownCache.find? (cluster_match e) = some E →
      (find_or_create_unknown s e).1 =
        (E.id, cosine_sim e (average_embeddings E.embeddings))) ∧
    (s.unknownCache.find? (cluster_match e) = none →
      (find_or_create_unknown s e).1 = ("Speaker_" ++ toString (s.unknownCounter + 1), 0) ∧
      (find_or_create_unknown s e).2.unknownCache =
        s.unknownCache ++
          [⟨"Speaker_" ++ toString (s.unknownCounter + 1), [e], 1⟩] ∧
      (find_or_create_unknown s e).2.unknownCounter = s.unknownCounter + 1) := by
  constructor
  · intro E hE
    obtain ⟨cache', hc⟩ := foc_scan_of_find_some s.profiles s.disk e s.unknownCache E hE
    simp [find_or_create_unknown, hc]
  · intro hN
    simp [find_or_create_unknown,
      foc_scan_of_find_none s.profiles s.disk e s.unknownCache hN]

/-- C2 witness: on an empty cache the scan finds nothing and a fresh
`Speaker_1` cluster is allocated. -/
theorem C2_witness :
    (initial_state : ServiceState ℝ).unknownCache.find? (cluster_match 1) = none ∧
    (find_or_create_unknown (initial_state : ServiceState ℝ) 1).1 = ("Speaker_1", 0) ∧
    (find_or_create_unknown (initial_state : ServiceState ℝ) 1).2.unknownCache =
      [⟨"Speaker_1", [(1 : ℝ)], 1⟩] := by
  have h := (C2_first_match_or_create (initial_state : ServiceState ℝ) 1).2 rfl
  exact ⟨rfl, h.1, by rw [h.2.1]; rfl⟩

/-! ### Counter-preservation lemmas -/

theorem try_auto_enroll_owner_counter (s : ServiceState V) (e : V) :
    (try_auto_enroll_owner s e).2.unknownCounter = s.unknownCounter := by
  simp only [try_auto_enroll_owner]
  split_ifs <;> rfl

theorem find_or_create_unknown_counter_le (s : ServiceState V) (e : V) :
    s.unknownCounter ≤ (find_or_create_unknown s e).2.unknownCounter := by
  rcases h : foc_scan s.profiles s.disk e s.unknownCache with _ | ⟨r, cache', p, d⟩
  · simp [find_or_create_unknown, h]
  · simp [find_or_create_unknown, h]

theorem identify_step2_counter_le (s : ServiceState V) (e : V) (hp : Bool) :
    s.unknownCounter ≤ (identify_step2 s e hp).2.unknownCounter := by
  unfold identify_step2
  rcases h : (identify_speaker s.profiles e).1 with _ | nm
  · simp only [h]
    exact find_or_create_unknown_counter_le s e
  · simp only [h]
    exact le_rfl

theorem identify_counter_le (s : ServiceState V) (eo : Option V) :
    s.unknownCounter ≤ (identify s eo).2.unknownCounter := by
  rcases eo with _ | e
  · exact le_rfl
  · simp only [identify]
    by_cases ho : s.ownerEnrolled
    · rw [if_pos ho]
      exact identify_step2_counter_le s e _
    · rw [if_neg ho]
      by_cases hb : (try_auto_enroll_owner s e).1
      · rw [if_pos hb]
        exact le_of_eq (try_auto_enroll_owner_counter s e).symm
      · rw [if_neg hb]
        calc s.unknownCounter = (try_auto_enroll_owner s e).2.unknownCounter :=
              (try_auto_enroll_owner_counter s e).symm
          _ ≤ _ := identify_step2_counter_le _ e _

theorem rename_op_counter (s : ServiceState V) (old new : String) :
    (rename_op s old new).2.unknownCounter = s.unknownCounter := by
  unfold rename_op
  rcases lookupKey s.profiles old with _ | emb
  · rcases renameInCache old new s.unknownCache with _ | ⟨E, cache'⟩ <;> rfl
  · rfl

/-- C6 (amended): the `Speaker_<n>` counter is monotone across `identify`,
`enroll` and `rename`, each fresh cluster gets `n` one greater than the
current counter — but `resetAll` zeroes the counter, so cluster ids ARE
reused after an in-session reset. -/
theorem C6_amended_counter_monotone_between_resets (s : ServiceState V) (e : V)
    (old new nm : String) (eo : Option V) :
    s.unknownCounter ≤ (find_or_create_unknown s e).2.unknownCounter ∧
    (s.unknownCache.find? (cluster_match e) = none →
      (find_or_create_unknown s e).2.unknownCounter = s.unknownCounter + 1 ∧
      (find_or_create_unknown s e).1.1 = "Speaker_" ++ toString (s.unknownCounter + 1)) ∧
    s.unknownCounter ≤ (identify s eo).2.unknownCounter ∧
    (enroll_op s nm e).unknownCounter = s.unknownCounter ∧
    (rename_op s old new).2.unknownCounter = s.unknownCounter ∧
    (reset_all s).unknownCounter = 0 := by
  refine ⟨find_or_create_unknown_counter_le s e, ?_, identify_counter_le s eo,
    rfl, rename_op_counter s old new, rfl⟩
  intro hN
  constructor
  · simp [find_or_create_unknown,
      foc_scan_of_find_none s.profiles s.disk e s.unknownCache hN]
  · simp [find_or_create_unknown,
      foc_scan_of_find_none s.profiles s.disk e s.unknownCache hN]

/-- C6 amended witness: a creation from the cold state allocates `Speaker_1`. -/
theorem C6_amended_witness :
    (initial_state : ServiceState ℝ).unknownCache.find? (cluster_match 1) = none ∧
    (find_or_create_unknown (initial_state : ServiceState ℝ) 1).2.unknownCounter = 0 + 1 ∧
    (find_or_create_unknown (initial_state : ServiceState ℝ) 1).1.1 =
      "Speaker_" ++ toString (0 + 1) :=
  ⟨rfl,
    ((C6_amended_counter_monotone_between_resets
      (initial_state : ServiceState ℝ) 1 "A" "B" "C" none).2.1 rfl).1,
    ((C6_amended_counter_monotone_between_resets
      (initial_state : ServiceState ℝ) 1 "A" "B" "C" none).2.1 rfl).2⟩

/-! ### Structural evaluation lemmas for the identify pipeline -/

theorem try_auto_first_sample (s : ServiceState V) (e : V)
    (h1 : s.ownerEnrolled = false) (h2 : s.ownerSamples = []) :
    try_auto_enroll_owner s e = (true, { s with ownerSamples := [e] }) := by
  simp only [try_auto_enroll_owner]
  rw [if_neg (by simp [h1]), if_pos (by simp [h2])]

theorem try_auto_collect (s : ServiceState V) (e : V)
    (h1 : s.ownerEnrolled = false) (h2 : s.ownerSamples ≠ [])
    (h3 : AUTO_ENROLL_THRESHOLD ≤ cosine_sim e (average_embeddings s.ownerSamples))
    (h4 : ¬ OWNER_ENROLL_SAMPLES ≤ s.ownerSamples.length + 1) :
    try_auto_enroll_owner s e = (true, { s with ownerSamples := s.ownerSamples ++ [e] }) := by
  simp only [try_auto_enroll_owner]
  rw [if_neg (by simp [h1]), if_neg (by simp [h2]), if_pos h3,
    if_neg (show ¬ OWNER_ENROLL_SAMPLES ≤ (s.ownerSamples ++ [e]).length by
      simpa using h4)]

theorem try_auto_finish (s : ServiceState V) (e : V)
    (h1 : s.ownerEnrolled = false) (h2 : s.ownerSamples ≠ [])
    (h3 : AUTO_ENROLL_THRESHOLD ≤ cosine_sim e (average_embeddings s.ownerSamples))
    (h4 : OWNER_ENROLL_SAMPLES ≤ s.ownerSamples.length + 1) :
    try_auto_enroll_owner s e =
      (true, save_profile { s with ownerEnrolled := true, ownerSamples := [] }
        OWNER_NAME (average_embeddings (s.ownerSamples ++ [e]))) := by
  simp only [try_auto_enroll_owner]
  rw [if_neg (by simp [h1]), if_neg (by simp [h2]), if_pos h3,
    if_pos (show OWNER_ENROLL_SAMPLES ≤ (s.ownerSamples ++ [e]).length by
      simpa using h4)]

theorem try_auto_reject (s : ServiceState V) (e : V)
    (h1 : s.ownerEnrolled = false) (h2 : s.ownerSamples ≠ [])
    (h3 : ¬ AUTO_ENROLL_THRESHOLD ≤ cosine_sim e (average_embeddings s.ownerSamples)) :
    try_auto_enroll_owner s e = (false, s) := by
  simp only [try_auto_enroll_owner]
  rw [if_neg (by simp [h1]), if_neg (by simp [h2]), if_neg h3]

theorem identify_enrolled (s : ServiceState V) (e : V) (h : s.ownerEnrolled = true) :
    identify s (some e) = identify_step2 s e (!s.profiles.isEmpty) := by
  simp only [identify]
  rw [if_pos h]

theorem identify_bootstrap (s : ServiceState V) (e : V)
    (h1 : s.ownerEnrolled = false) (hb : (try_auto_enroll_owner s e).1 = true) :
    identify s (some e) =
      ({ speaker := some OWNER_NAME, similarity := 1, known := true,
         autoEnrolling := true, hasProfiles := true,
         samples := (try_auto_enroll_owner s e).2.ownerSamples.length,
         needed := OWNER_ENROLL_SAMPLES, path := .bootstrap },
       (try_auto_enroll_owner s e).2) := by
  simp only [identify]
  rw [if_neg (by simp [h1]), if_pos hb]

theorem identify_fallthrough (s : ServiceState V) (e : V)
    (h1 : s.ownerEnrolled = false) (hb : (try_auto_enroll_owner s e).1 = false) :
    identify s (some e) = identify_step2 (try_auto_enroll_owner s e).2 e (!s.profiles.isEmpty) := by
  simp only [identify]
  rw [if_neg (by simp [h1]), if_neg (by simp [hb])]

theorem identify_step2_match (s : ServiceState V) (e : V) (hp : Bool) (nm : String)
    (b : ℝ) (h : identify_speaker s.profiles e = (some nm, b)) :
    identify_step2 s e hp =
      ({ speaker := some nm, similarity := b,
         known := true, hasProfiles := true, path := .profileMatch }, s) := by
  simp only [identify_step2, h]

theorem identify_step2_unknown (s : ServiceState V) (e : V) (hp : Bool)
    (b : ℝ) (h : identify_speaker s.profiles e = (none, b)) :
    identify_step2 s e hp =
      ({ speaker := some (find_or_create_unknown s e).1.1,
         similarity := b,
         known := false, hasProfiles := hp, path := .unknownPath },
       (find_or_create_unknown s e).2) := by
  simp only [identify_step2, h]

/-! ### C6 counterexample: a concrete run in which `resetAll` causes the
`Speaker_1` label to be handed to two different clusters -/

/-- Cosine facts for the concrete embeddings `1, -1 : ℝ` used in the runs. -/
theorem cosine_one_one : cosine_sim (1 : ℝ) 1 = 1 :=
  cosine_sim_self 1 one_ne_zero

theorem cosine_negone_one : cosine_sim (-1 : ℝ) 1 = -1 := by
  rw [show (-1 : ℝ) = -(1 : ℝ) by norm_num, cosine_sim_neg_left, cosine_one_one]

theorem average_single (v : V) : average_embeddings [v] = v := by
  simp [average_embeddings]

theorem average_one_one : average_embeddings [(1 : ℝ), 1] = 1 := by
  rw [average_embeddings, if_neg (by simp)]
  simp [smul_eq_mul]
  norm_num

theorem average_one_one_one : average_embeddings [(1 : ℝ), 1, 1] = 1 := by
  rw [average_embeddings, if_neg (by simp)]
  simp [smul_eq_mul]
  norm_num

/-- Evaluation of `identify` on an embedding opposite the only profile:
no profile match (best similarity stays 0), so a fresh cluster is created. -/
theorem identify_opposite_eval :
    identify (⟨[("Pablo", (1 : ℝ))], [("Pablo", (1 : ℝ))], true, [], 0, []⟩ :
        ServiceState ℝ) (some (-1)) =
      ({ speaker := some "Speaker_1", similarity := 0, known := false,
         autoEnrolling := false, hasProfiles := true, samples := 0, needed := 0,
         errorMsg := none, path := .unknownPath },
       ⟨[("Pablo", (1 : ℝ))], [("Pablo", (1 : ℝ))], true, [], 1,
        [⟨"Speaker_1", [(-1 : ℝ)], 1⟩]⟩) := by
  have hb : List.foldl (best_step (-1 : ℝ)) ((none : Option String), (0 : ℝ))
      [("Pablo", (1 : ℝ))] = (none, 0) := by
    simp only [List.foldl_cons, List.foldl_nil, best_step]
    rw [if_neg (by rw [cosine_negone_one]; norm_num)]
  have hid : identify_speaker [("Pablo", (1 : ℝ))] (-1 : ℝ) = (none, 0) := by
    rw [identify_speaker_eq_fold, hb]
    norm_num [SIMILARITY_THRESHOLD]
  rw [identify_enrolled _ _ rfl, identify_step2_unknown _ _ _ _ hid]
  rfl

def C6run0 : ServiceState ℝ := load_state [("Pablo", 1)]

def C6run1 : IdentifyResponse × ServiceState ℝ := identify C6run0 (some (-1))

def C6run2 : ServiceState ℝ := reset_all C6run1.2

def C6run3 : ServiceState ℝ := (identify C6run2 (some 1)).2

def C6run4 : ServiceState ℝ := (identify C6run3 (some 1)).2

def C6run5 : ServiceState ℝ := (identify C6run4 (some 1)).2

def C6run6 : IdentifyResponse × ServiceState ℝ := identify C6run5 (some (-1))

theorem C6run0_eval :
    C6run0 = ⟨[("Pablo", (1 : ℝ))], [("Pablo", (1 : ℝ))], true, [], 0, []⟩ := rfl

theorem C6run3_eval : C6run3 = ⟨[], [], false, [(1 : ℝ)], 0, []⟩ := rfl

theorem C6run4_eval : C6run4 = ⟨[], [], false, [(1 : ℝ), 1], 0, []⟩ := by
  have htry : try_auto_enroll_owner (⟨[], [], false, [(1 : ℝ)], 0, []⟩ : ServiceState ℝ) 1 =
      (true, ⟨[], [], false, [(1 : ℝ), 1], 0, []⟩) := by
    rw [try_auto_collect _ _ rfl (by simp)
      (by rw [show (⟨[], [], false, [(1 : ℝ)], 0, []⟩ :
            ServiceState ℝ).ownerSamples = [(1 : ℝ)] from rfl,
          average_single, cosine_one_one]
          norm_num [AUTO_ENROLL_THRESHOLD])
      (by norm_num [OWNER_ENROLL_SAMPLES])]
    rfl
  rw [C6run4, C6run3_eval, identify_bootstrap _ _ rfl (by rw [htry]), htry]

theorem C6run5_eval :
    C6run5 = ⟨[("Pablo", (1 : ℝ))], [("Pablo", (1 : ℝ))], true, [], 0, []⟩ := by
  have htry : try_auto_enroll_owner (⟨[], [], false, [(1 : ℝ), 1], 0, []⟩ : ServiceState ℝ) 1 =
      (true, ⟨[("Pablo", (1 : ℝ))], [("Pablo", (1 : ℝ))], true, [], 0, []⟩) := by
    rw [try_auto_finish _ _ rfl (by simp)
      (by rw [show (⟨[], [], false, [(1 : ℝ), 1], 0, []⟩ :
            ServiceState ℝ).ownerSamples = [(1 : ℝ), 1] from rfl,
          average_one_one, cosine_one_one]
          norm_num [AUTO_ENROLL_THRESHOLD])
      (by norm_num [OWNER_ENROLL_SAMPLES])]
    rw [show ((⟨[], [], false, [(1 : ℝ), 1], 0, []⟩ :
        ServiceState ℝ).ownerSamples ++ [1]) = [(1 : ℝ), 1, 1] from rfl,
      average_one_one_one]
    rfl
  rw [C6run5, C6run4_eval, identify_bootstrap _ _ rfl (by rw [htry]), htry]

/-- C6 counterexample: in a single process run containing a `resetAll`, the
label `Speaker_1` is assigned to two different clusters (created at step 1
and step 6), and the later-created cluster does not have a larger `n`. -/
theorem C6_counterexample_id_reused_after_reset :
    C6run1.1.speaker = some "Speaker_1" ∧
    C6run1.2.unknownCache = [⟨"Speaker_1", [(-1 : ℝ)], 1⟩] ∧
    C6run1.2.unknownCounter = 1 ∧
    C6run5.ownerEnrolled = true ∧
    C6run6.1.speaker = some "Speaker_1" ∧
    C6run6.2.unknownCache = [⟨"Speaker_1", [(-1 : ℝ)], 1⟩] ∧
    C6run6.2.unknownCounter = 1 := by
  have h1 : C6run1 =
      ({ speaker := some "Speaker_1", similarity := 0, known := false,
         autoEnrolling := false, hasProfiles := true, samples := 0, needed := 0,
         errorMsg := none, path := .unknownPath },
       (⟨[("Pablo", (1 : ℝ))], [("Pablo", (1 : ℝ))], true, [], 1,
        [⟨"Speaker_1", [(-1 : ℝ)], 1⟩]⟩ : ServiceState ℝ)) := by
    rw [C6run1, C6run0_eval, identify_opposite_eval]
  have h6 : C6run6 =
      ({ speaker := some "Speaker_1", similarity := 0, known := false,
         autoEnrolling := false, hasProfiles := true, samples := 0, needed := 0,
         errorMsg := none, path := .unknownPath },
       (⟨[("Pablo", (1 : ℝ))], [("Pablo", (1 : ℝ))], true, [], 1,
        [⟨"Speaker_1", [(-1 : ℝ)], 1⟩]⟩ : ServiceState ℝ)) := by
    rw [C6run6, C6run5_eval, identify_opposite_eval]
  rw [h1, h6, C6run5_eval]
  exact ⟨rfl, rfl, rfl, rfl, rfl, rfl, rfl⟩

/-! ### C3 and C9: the rename contract -/

/-- C3: `rename(old, new)` moves a stored profile (in memory and durably),
else promotes the first unknown cluster with id `old` under `new`, else
fails with not-found changing nothing.  The no-duplicate-key hypotheses
reflect the Python dict / one-file-per-profile representation. -/
theorem C3_rename_contract (s : ServiceState V) (old new : String)
    (hndp : (s.profiles.map Prod.fst).Nodup) (hndd : (s.disk.map Prod.fst).Nodup) :
    (∀ emb, lookupKey s.profiles old = some emb →
      (rename_op s old new).1 = RenameOutcome.renamed ∧
      lookupKey (rename_op s old new).2.profiles new = some emb ∧
      lookupKey (rename_op s old new).2.disk new = some emb ∧
      (old ≠ new →
        lookupKey (rename_op s old new).2.profiles old = none ∧
        lookupKey (rename_op s old new).2.disk old = none)) ∧
    (∀ E, lookupKey s.profiles old = none →
      s.unknownCache.find? (fun F => decide (F.id = old)) = some E →
      (rename_op s old new).1 = RenameOutcome.renamed ∧
      lookupKey (rename_op s old new).2.profiles new =
        some (average_embeddings E.embeddings) ∧
      lookupKey (rename_op s old new).2.disk new =
        some (average_embeddings E.embeddings)) ∧
    (lookupKey s.profiles old = none →
      s.unknownCache.find? (fun F => decide (F.id = old)) = none →
      rename_op s old new = (RenameOutcome.notFound, s)) := by
  refine ⟨?_, ?_, ?_⟩
  · intro emb hemb
    have hr : rename_op s old new =
        (.renamed, save_profile
          { s with profiles := removeKey s.profiles old, disk := removeKey s.disk old }
          new emb) := by
      simp only [rename_op, hemb]
    rw [hr]
    refine ⟨rfl, lookup_upsert_self _ new emb, lookup_upsert_self _ new emb, ?_⟩
    intro hne
    constructor
    · rw [show (save_profile
          { s with profiles := removeKey s.profiles old, disk := removeKey s.disk old }
          new emb).profiles = upsert (removeKey s.profiles old) new emb from rfl,
        lookup_upsert_ne _ new old emb hne]
      exact lookup_removeKey_self s.profiles old hndp
    · rw [show (save_profile
          { s with profiles := removeKey s.profiles old, disk := removeKey s.disk old }
          new emb).disk = upsert (removeKey s.disk old) new emb from rfl,
        lookup_upsert_ne _ new old emb hne]
      exact lookup_removeKey_self s.disk old hndd
  · intro E hno hE
    obtain ⟨cache', hc⟩ := renameInCache_of_find_some old new s.unknownCache E hE
    have hr : rename_op s old new =
        (.renamed, save_profile { s with unknownCache := cache' } new
          (average_embeddings E.embeddings)) := by
      simp only [rename_op, hno, hc]
    rw [hr]
    exact ⟨rfl, lookup_upsert_self _ new _, lookup_upsert_self _ new _⟩
  · intro hno hfn
    simp only [rename_op, hno, renameInCache_of_find_none old new s.unknownCache hfn]

/-- C3 witness: renaming the stored profile `"Bob"` to `"Alice"`, and the
not-found failure on an empty store. -/
theorem C3_witness :
    ((([("Bob", (2 : ℝ))].map Prod.fst).Nodup) ∧
      lookupKey [("Bob", (2 : ℝ))] "Bob" = some 2 ∧ "Bob" ≠ "Alice") ∧
    ((rename_op (⟨[("Bob", (2 : ℝ))], [("Bob", (2 : ℝ))], true, [], 0, []⟩ :
        ServiceState ℝ) "Bob" "Alice").1 = RenameOutcome.renamed ∧
      lookupKey (rename_op (⟨[("Bob", (2 : ℝ))], [("Bob", (2 : ℝ))], true, [], 0, []⟩ :
        ServiceState ℝ) "Bob" "Alice").2.profiles "Alice" = some 2 ∧
      lookupKey (rename_op (⟨[("Bob", (2 : ℝ))], [("Bob", (2 : ℝ))], true, [], 0, []⟩ :
        ServiceState ℝ) "Bob" "Alice").2.profiles "Bob" = none) ∧
    rename_op (⟨[], [], false, [], 0, []⟩ : ServiceState ℝ) "Ghost" "X" =
      (RenameOutcome.notFound, ⟨[], [], false, [], 0, []⟩) := by
  have hmain := C3_rename_contract
    (⟨[("Bob", (2 : ℝ))], [("Bob", (2 : ℝ))], true, [], 0, []⟩ : ServiceState ℝ)
    "Bob" "Alice" (by simp) (by simp)
  have h1 := hmain.1 2 rfl
  have hnf := (C3_rename_contract (⟨[], [], false, [], 0, []⟩ : ServiceState ℝ)
    "Ghost" "X" (by simp) (by simp)).2.2 rfl rfl
  exact ⟨⟨by simp, rfl, by decide⟩,
    ⟨h1.1, h1.2.1, (h1.2.2.2 (by decide)).1⟩, hnf⟩

/-- C9: rename never checks whether `new` already names a profile: when `new`
is stored and `old` is a stored profile (or an unknown-cluster id), rename
succeeds and silently overwrites `new`'s embedding in memory and on disk. -/
theorem C9_rename_overwrites_target (s : ServiceState V) (old new : String) :
    (∀ embN embO, lookupKey s.profiles new = some embN →
      lookupKey s.profiles old = some embO →
      (rename_op s old new).1 = RenameOutcome.renamed ∧
      lookupKey (rename_op s old new).2.profiles new = some embO ∧
      lookupKey (rename_op s old new).2.disk new = some embO) ∧
    (∀ embN E, lookupKey s.profiles new = some embN →
      lookupKey s.profiles old = none →
      s.unknownCache.find? (fun F => decide (F.id = old)) = some E →
      (rename_op s old new).1 = RenameOutcome.renamed ∧
      lookupKey (rename_op s old new).2.profiles new =
        some (average_embeddings E.embeddings) ∧
      lookupKey (rename_op s old new).2.disk new =
        some (average_embeddings E.embeddings)) := by
  constructor
  · intro embN embO _ hold
    have hr : rename_op s old new =
        (.renamed, save_profile
          { s with profiles := removeKey s.profiles old, disk := removeKey s.disk old }
          new embO) := by
      simp only [rename_op, hold]
    rw [hr]
    exact ⟨rfl, lookup_upsert_self _ new _, lookup_upsert_self _ new _⟩
  · intro embN E _ hno hE
    obtain ⟨cache', hc⟩ := renameInCache_of_find_some old new s.unknownCache E hE
    have hr : rename_op s old new =
        (.renamed, save_profile { s with unknownCache := cache' } new
          (average_embeddings E.embeddings)) := by
      simp only [rename_op, hno, hc]
    rw [hr]
    exact ⟨rfl, lookup_upsert_self _ new _, lookup_upsert_self _ new _⟩

/-- C9 witness: `"Alice"` already stores `3`; renaming stored `"Bob"` (value
`2`) onto it succeeds and leaves `"Alice" ↦ 2`; renaming the cluster
`Speaker_1` onto an existing `"Alice"` also succeeds. -/
theorem C9_witness :
    (lookupKey [("Alice", (3 : ℝ)), ("Bob", 2)] "Alice" = some 3 ∧
      lookupKey [("Alice", (3 : ℝ)), ("Bob", 2)] "Bob" = some 2 ∧
      (rename_op (⟨[("Alice", (3 : ℝ)), ("Bob", 2)], [("Alice", (3 : ℝ)), ("Bob", 2)],
          true, [], 0, []⟩ : ServiceState ℝ) "Bob" "Alice").1 = RenameOutcome.renamed ∧
      lookupKey (rename_op (⟨[("Alice", (3 : ℝ)), ("Bob", 2)],
          [("Alice", (3 : ℝ)), ("Bob", 2)], true, [], 0, []⟩ : ServiceState ℝ)
          "Bob" "Alice").2.profiles "Alice" = some 2) ∧
    (lookupKey [("Alice", (3 : ℝ))] "Speaker_1" = none ∧
      (rename_op (⟨[("Alice", (3 : ℝ))], [("Alice", (3 : ℝ))], true, [], 1,
          [⟨"Speaker_1", [(2 : ℝ)], 1⟩]⟩ : ServiceState ℝ) "Speaker_1" "Alice").1 =
        RenameOutcome.renamed ∧
      lookupKey (rename_op (⟨[("Alice", (3 : ℝ))], [("Alice", (3 : ℝ))], true, [], 1,
          [⟨"Speaker_1", [(2 : ℝ)], 1⟩]⟩ : ServiceState ℝ)
          "Speaker_1" "Alice").2.profiles "Alice" =
        some (average_embeddings [(2 : ℝ)])) := by
  have h1 := (C9_rename_overwrites_target
    (⟨[("Alice", (3 : ℝ)), ("Bob", 2)], [("Alice", (3 : ℝ)), ("Bob", 2)],
      true, [], 0, []⟩ : ServiceState ℝ) "Bob" "Alice").1 3 2 rfl rfl
  have h2 := (C9_rename_overwrites_target
    (⟨[("Alice", (3 : ℝ))], [("Alice", (3 : ℝ))], true, [], 1,
      [⟨"Speaker_1", [(2 : ℝ)], 1⟩]⟩ : ServiceState ℝ) "Speaker_1" "Alice").2
    3 ⟨"Speaker_1", [(2 : ℝ)], 1⟩ rfl rfl rfl
  exact ⟨⟨rfl, rfl, h1.1, h1.2.1⟩, ⟨rfl, h2.1, h2.2.1⟩⟩

/-! ### C5: the unknown-path Decision reports the best known-profile
similarity -/

/-- C5: whenever identify falls through to the unknown-cluster path, the
response carries the unknown-cluster label with `known = false`, but its
similarity field is the best similarity against named profiles from the
profile-matching step (0.0 for an empty store), not the cluster-match
similarity. -/
theorem C5_unknown_path_similarity (s : ServiceState V) (e : V)
    (h : (identify s (some e)).1.path = RespPath.unknownPath) :
    (identify s (some e)).1.known = false ∧
    (identify s (some e)).1.similarity = (identify_speaker s.profiles e).2 ∧
    (s.profiles = [] → (identify s (some e)).1.similarity = 0) ∧
    (identify s (some e)).1.speaker = some (find_or_create_unknown s e).1.1 := by
  by_cases ho : s.ownerEnrolled
  · rw [identify_enrolled s e ho] at h ⊢
    rcases hid : identify_speaker s.profiles e with ⟨ns1, b⟩
    rcases ns1 with _ | nm
    · rw [identify_step2_unknown s e _ b hid]
      refine ⟨rfl, rfl, ?_, rfl⟩
      intro hempty
      have : identify_speaker s.profiles e = (none, 0) := by rw [hempty]; rfl
      rw [hid] at this
      simpa using congrArg Prod.snd this
    · rw [identify_step2_match s e _ nm b hid] at h
      simp at h
  · have ho' : s.ownerEnrolled = false := by simpa using ho
    by_cases hb : (try_auto_enroll_owner s e).1
    · rw [identify_bootstrap s e ho' hb] at h
      simp at h
    · have hb' : (try_auto_enroll_owner s e).1 = false := by simpa using hb
      have hst := try_auto_enroll_owner_false s e hb'
      rw [identify_fallthrough s e ho' hb', hst] at h ⊢
      rcases hid : identify_speaker s.profiles e with ⟨ns1, b⟩
      rcases ns1 with _ | nm
      · rw [identify_step2_unknown s e _ b hid]
        refine ⟨rfl, rfl, ?_, rfl⟩
        intro hempty
        have : identify_speaker s.profiles e = (none, 0) := by rw [hempty]; rfl
        rw [hid] at this
        simpa using congrArg Prod.snd this
      · rw [identify_step2_match s e _ nm b hid] at h
        simp at h

/-- C5 witness: a store whose only profile is opposite to the input; the
unknown path reports similarity 0 (the best known similarity), not the
cluster-match similarity. -/
theorem C5_witness :
    (identify (⟨[("A", (-1 : ℝ))], [("A", (-1 : ℝ))], true, [], 0, []⟩ :
        ServiceState ℝ) (some 1)).1.path = RespPath.unknownPath ∧
    (identify (⟨[("A", (-1 : ℝ))], [("A", (-1 : ℝ))], true, [], 0, []⟩ :
        ServiceState ℝ) (some 1)).1.known = false ∧
    (identify (⟨[("A", (-1 : ℝ))], [("A", (-1 : ℝ))], true, [], 0, []⟩ :
        ServiceState ℝ) (some 1)).1.similarity =
      (identify_speaker [("A", (-1 : ℝ))] (1 : ℝ)).2 := by
  have hb : List.foldl (best_step (1 : ℝ)) ((none : Option String), (0 : ℝ))
      [("A", (-1 : ℝ))] = (none, 0) := by
    simp only [List.foldl_cons, List.foldl_nil, best_step]
    rw [if_neg (by
      rw [show ((-1 : ℝ)) = -(1 : ℝ) by norm_num, cosine_sim_neg_right, cosine_one_one]
      norm_num)]
  have hid : identify_speaker [("A", (-1 : ℝ))] (1 : ℝ) = (none, 0) := by
    rw [identify_speaker_eq_fold, hb]
    norm_num [SIMILARITY_THRESHOLD]
  have hpath : (identify (⟨[("A", (-1 : ℝ))], [("A", (-1 : ℝ))], true, [], 0, []⟩ :
      ServiceState ℝ) (some 1)).1.path = RespPath.unknownPath := by
    rw [identify_enrolled _ _ rfl, identify_step2_unknown _ _ _ _ hid]
  have hc := C5_unknown_path_similarity
    (⟨[("A", (-1 : ℝ))], [("A", (-1 : ℝ))], true, [], 0, []⟩ : ServiceState ℝ) 1 hpath
  exact ⟨hpath, hc.1, hc.2.1⟩

/-! ### C7: rolling refresh of a promoted cluster -/

/-- C7 (amended): when an embedding is matched into an already-promoted
cluster (its id is a key of the profile store), the in-memory profile under
the cluster id is refreshed with the normalized average of the last 10
retained members — but the durable per-profile record is NOT rewritten: the
disk contents are unchanged. -/
theorem C7_amended_refresh_memory_only (s : ServiceState V) (e : V) (E : ClusterEntry V)
    (hE : s.unknownCache.find? (cluster_match e) = some E)
    (hkey : hasKey s.profiles E.id = true) :
    (find_or_create_unknown s e).1 =
      (E.id, cosine_sim e (average_embeddings E.embeddings)) ∧
    lookupKey (find_or_create_unknown s e).2.profiles E.id =
      some (average_embeddings (lastN 10 (E.embeddings ++ [e]))) ∧
    (find_or_create_unknown s e).2.disk = s.disk := by
  obtain ⟨cache', hc⟩ := foc_scan_of_find_some s.profiles s.disk e s.unknownCache E hE
  have hcond : ¬ (UNKNOWN_ENROLL_SAMPLES ≤ E.count + 1 ∧ hasKey s.profiles E.id = false) := by
    simp [hkey]
  have hsp : scanProf s.profiles e E =
      upsert s.profiles E.id (average_embeddings (lastN 10 (E.embeddings ++ [e]))) := by
    rw [scanProf, if_neg hcond, if_pos hkey]
  have hsd : scanDisk s.profiles s.disk e E = s.disk := by
    rw [scanDisk, if_neg hcond]
  refine ⟨?_, ?_, ?_⟩
  · simp [find_or_create_unknown, hc]
  · simp only [find_or_create_unknown, hc]
    rw [hsp]
    exact lookup_upsert_self _ _ _
  · simp only [find_or_create_unknown, hc]
    rw [hsd]

/-- The concrete state for the C7 analysis: cluster `Speaker_1` with one
retained member `2`, already promoted (profile and durable record hold `2`). -/
def C7state : ServiceState ℝ :=
  ⟨[("Speaker_1", 2)], [("Speaker_1", 2)], true, [], 1, [⟨"Speaker_1", [2], 1⟩]⟩

theorem cosine_two_two : cosine_sim (2 : ℝ) 2 = 1 :=
  cosine_sim_self 2 two_ne_zero

theorem average_two_two : average_embeddings [(2 : ℝ), 2] = 1 := by
  rw [average_embeddings, if_neg (by simp)]
  simp [smul_eq_mul]
  norm_num [Real.norm_eq_abs]

theorem C7_cluster_match : cluster_match (2 : ℝ) (⟨"Speaker_1", [2], 1⟩ : ClusterEntry ℝ) =
    true := by
  simp only [cluster_match, decide_eq_true_eq]
  rw [average_single, cosine_two_two]
  norm_num [AUTO_ENROLL_THRESHOLD]

/-- C7 counterexample: matching `2` into the promoted cluster `Speaker_1`
updates the in-memory profile to the normalized average `1`, while the
durable record still holds `2` — the claim's "both the in-memory mapping and
the durable per-profile record are updated" is false. -/
theorem C7_counterexample_durable_not_updated :
    lookupKey (find_or_create_unknown C7state 2).2.profiles "Speaker_1" =
      some (average_embeddings (lastN 10 ([(2 : ℝ)] ++ [2]))) ∧
    average_embeddings (lastN 10 ([(2 : ℝ)] ++ [2])) = 1 ∧
    (find_or_create_unknown C7state 2).2.disk = [("Speaker_1", (2 : ℝ))] ∧
    lookupKey (find_or_create_unknown C7state 2).2.disk "Speaker_1" = some 2 ∧
    (2 : ℝ) ≠ 1 := by
  have hE : C7state.unknownCache.find? (cluster_match 2) =
      some (⟨"Speaker_1", [2], 1⟩ : ClusterEntry ℝ) := by
    rw [show C7state.unknownCache = [(⟨"Speaker_1", [2], 1⟩ : ClusterEntry ℝ)] from rfl,
      List.find?_cons_of_pos _ C7_cluster_match]
  obtain ⟨cache', hc⟩ := foc_scan_of_find_some C7state.profiles C7state.disk 2
    C7state.unknownCache _ hE
  have hcond : ¬ (UNKNOWN_ENROLL_SAMPLES ≤
      (⟨"Speaker_1", [2], 1⟩ : ClusterEntry ℝ).count + 1 ∧
      hasKey C7state.profiles (⟨"Speaker_1", [2], 1⟩ : ClusterEntry ℝ).id = false) := by
    simp [UNKNOWN_ENROLL_SAMPLES]
  have hsp : scanProf C7state.profiles 2 (⟨"Speaker_1", [2], 1⟩ : ClusterEntry ℝ) =
      upsert C7state.profiles "Speaker_1"
        (average_embeddings (lastN 10 ([(2 : ℝ)] ++ [2]))) := by
    rw [scanProf, if_neg hcond,
      if_pos (show hasKey C7state.profiles
        (⟨"Speaker_1", [2], 1⟩ : ClusterEntry ℝ).id = true from rfl)]
  have hsd : scanDisk C7state.profiles C7state.disk 2
      (⟨"Speaker_1", [2], 1⟩ : ClusterEntry ℝ) = C7state.disk := by
    rw [scanDisk, if_neg hcond]
  have havg : average_embeddings (lastN 10 ([(2 : ℝ)] ++ [2])) = 1 := by
    rw [show lastN 10 ([(2 : ℝ)] ++ [2]) = [(2 : ℝ), 2] from rfl]
    exact average_two_two
  have hdisk : (find_or_create_unknown C7state 2).2.disk = [("Speaker_1", (2 : ℝ))] := by
    simp only [find_or_create_unknown, hc]
    rw [hsd]
    rfl
  refine ⟨?_, havg, hdisk, by rw [hdisk]; rfl, by norm_num⟩
  simp only [find_or_create_unknown, hc]
  rw [hsp]
  exact lookup_upsert_self _ _ _

/-- C7 amended witness: the same concrete refresh, obtained through the
amended theorem. -/
theorem C7_amended_witness :
    C7state.unknownCache.find? (cluster_match 2) =
      some (⟨"Speaker_1", [2], 1⟩ : ClusterEntry ℝ) ∧
    hasKey C7state.profiles "Speaker_1" = true ∧
    lookupKey (find_or_create_unknown C7state 2).2.profiles "Speaker_1" =
      some (average_embeddings (lastN 10 ([(2 : ℝ)] ++ [2]))) ∧
    (find_or_create_unknown C7state 2).2.disk = C7state.disk := by
  have hE : C7state.unknownCache.find? (cluster_match 2) =
      some (⟨"Speaker_1", [2], 1⟩ : ClusterEntry ℝ) := by
    rw [show C7state.unknownCache = [(⟨"Speaker_1", [2], 1⟩ : ClusterEntry ℝ)] from rfl,
      List.find?_cons_of_pos _ C7_cluster_match]
  have h := C7_amended_refresh_memory_only C7state 2 ⟨"Speaker_1", [2], 1⟩ hE rfl
  exact ⟨hE, rfl, h.2.1, h.2.2⟩

/-! ### C8: enroll-then-identify idempotence -/

/-- C8 counterexample: on a cold start (owner not yet enrolled), `identify`
after `enroll("Alice", e)` is captured by the owner bootstrap and returns the
owner name `"Pablo"`, not `"Alice"` — so the claim fails for every name other
than the owner's.  (The response is the bootstrap path, not a profile match.) -/
theorem C8_counterexample_bootstrap_overrides_enroll :
    (identify (enroll_op (initial_state : ServiceState ℝ) "Alice" 1) (some 1)).1.speaker =
      some "Pablo" ∧
    some "Pablo" ≠ (some "Alice" : Option String) ∧
    (identify (enroll_op (initial_state : ServiceState ℝ) "Alice" 1) (some 1)).1.path =
      RespPath.bootstrap := by
  have htry : try_auto_enroll_owner (enroll_op (initial_state : ServiceState ℝ) "Alice" 1) 1 =
      (true, { enroll_op (initial_state : ServiceState ℝ) "Alice" 1 with
        ownerSamples := [1] }) :=
    try_auto_first_sample _ _ rfl rfl
  rw [identify_bootstrap _ _ rfl (by rw [htry])]
  exact ⟨rfl, by simp, rfl⟩

/-- C8 (amended): provided the owner is already enrolled, the embedding is
nonzero, and no profile stored under another name is exactly collinear with
`e` (cosine similarity 1), `enroll(name, e)` followed by `identify(e)`
returns `known = true`, `label = name`, similarity exactly 1 (the real-model
reading of similarity ≈ 1.0), via the profile-match path. -/
theorem C8_amended_enroll_identify (s : ServiceState V) (name : String) (e : V)
    (he : e ≠ 0) (ho : s.ownerEnrolled = true)
    (hother : ∀ p ∈ s.profiles, p.1 ≠ name → cosine_sim e p.2 < 1) :
    (identify (enroll_op s name e) (some e)).1.speaker = some name ∧
    (identify (enroll_op s name e) (some e)).1.known = true ∧
    (identify (enroll_op s name e) (some e)).1.similarity = 1 ∧
    (identify (enroll_op s name e) (some e)).1.path = RespPath.profileMatch := by
  have hone : cosine_sim e e = 1 := cosine_sim_self e he
  obtain ⟨l1, l2, heq, hmem⟩ := upsert_decomp s.profiles name e
  have hfold : (upsert s.profiles name e).foldl (best_step e)
      ((none : Option String), (0 : ℝ)) = (some name, 1) := by
    rw [heq, List.foldl_append, List.foldl_cons]
    have hacc : (l1.foldl (best_step e) ((none : Option String), (0 : ℝ))).2 < 1 :=
      best_fold_lt_one e l1 _ (fun p hp => hother p (hmem p hp).2 (hmem p hp).1)
        (by norm_num)
    have hstep : best_step e (l1.foldl (best_step e) ((none : Option String), (0 : ℝ)))
        (name, e) = (some name, 1) := by
      simp only [best_step]
      rw [if_pos (by rw [hone]; exact hacc)]
      rw [hone]
    rw [hstep]
    exact best_fold_stays_top e l2 name hone
  have hid : identify_speaker (upsert s.profiles name e) e = (some name, 1) := by
    rw [identify_speaker_eq_fold, hfold,
      if_neg (by simp [List.isEmpty_iff, upsert_ne_nil]),
      if_pos (by norm_num [SIMILARITY_THRESHOLD])]
  rw [identify_enrolled (enroll_op s name e) e ho,
    identify_step2_match _ _ _ name 1 hid]
  exact ⟨rfl, rfl, rfl, rfl⟩

/-- C8 amended witness: with the owner enrolled and an empty store, enrolling
`"Alice"` with embedding `1` and identifying `1` returns `Alice` with
similarity 1. -/
theorem C8_amended_witness :
    ((1 : ℝ) ≠ 0 ∧
      (⟨[], [], true, [], 0, []⟩ : ServiceState ℝ).ownerEnrolled = true ∧
      (∀ p ∈ (⟨[], [], true, [], 0, []⟩ : ServiceState ℝ).profiles,
        p.1 ≠ "Alice" → cosine_sim (1 : ℝ) p.2 < 1)) ∧
    (identify (enroll_op (⟨[], [], true, [], 0, []⟩ : ServiceState ℝ) "Alice" 1)
        (some 1)).1.speaker = some "Alice" ∧
    (identify (enroll_op (⟨[], [], true, [], 0, []⟩ : ServiceState ℝ) "Alice" 1)
        (some 1)).1.known = true ∧
    (identify (enroll_op (⟨[], [], true, [], 0, []⟩ : ServiceState ℝ) "Alice" 1)
        (some 1)).1.similarity = 1 := by
  have h := C8_amended_enroll_identify (⟨[], [], true, [], 0, []⟩ : ServiceState ℝ)
    "Alice" 1 one_ne_zero rfl (by simp)
  exact ⟨⟨one_ne_zero, rfl, by simp⟩, h.1, h.2.1, h.2.2.1⟩

/-! ### C1: determinism of the owner bootstrap -/

/-- State after the first `identify` from the cold state. -/
def boot1 (e1 : V) : ServiceState V := (identify initial_state (some e1)).2

/-- State after the second `identify`. -/
def boot2 (e1 e2 : V) : ServiceState V := (identify (boot1 e1) (some e2)).2

/-- State after the third `identify`. -/
def boot3 (e1 e2 e3 : V) : ServiceState V := (identify (boot2 e1 e2) (some e3)).2

/-- C1: from the cold state, three nonzero embeddings with pairwise cosine
similarity at least the bootstrap threshold are each accepted as the owner
(owner label, `known = true`, `autoEnrolling = true`); after the third call a
profile under the owner name holds the normalized average of the three
samples (in memory and durably), the bootstrap is enrolled with pending
samples empty, and a fourth embedding whose similarity to each of the first
three meets the identification threshold is identified as the owner via the
profile-match path, not via bootstrap. -/
theorem C1_bootstrap_determinism (e1 e2 e3 e4 : V)
    (h1 : e1 ≠ 0) (h2 : e2 ≠ 0) (h3 : e3 ≠ 0) (h4 : e4 ≠ 0)
    (h12 : AUTO_ENROLL_THRESHOLD ≤ cosine_sim e1 e2)
    (h13 : AUTO_ENROLL_THRESHOLD ≤ cosine_sim e1 e3)
    (h23 : AUTO_ENROLL_THRESHOLD ≤ cosine_sim e2 e3)
    (h41 : SIMILARITY_THRESHOLD ≤ cosine_sim e4 e1)
    (h42 : SIMILARITY_THRESHOLD ≤ cosine_sim e4 e2)
    (h43 : SIMILARITY_THRESHOLD ≤ cosine_sim e4 e3) :
    ((identify (initial_state : ServiceState V) (some e1)).1.speaker = some OWNER_NAME ∧
      (identify (initial_state : ServiceState V) (some e1)).1.known = true ∧
      (identify (initial_state : ServiceState V) (some e1)).1.autoEnrolling = true) ∧
    ((identify (boot1 e1) (some e2)).1.speaker = some OWNER_NAME ∧
      (identify (boot1 e1) (some e2)).1.known = true ∧
      (identify (boot1 e1) (some e2)).1.autoEnrolling = true) ∧
    ((identify (boot2 e1 e2) (some e3)).1.speaker = some OWNER_NAME ∧
      (identify (boot2 e1 e2) (some e3)).1.known = true ∧
      (identify (boot2 e1 e2) (some e3)).1.autoEnrolling = true) ∧
    (lookupKey (boot3 e1 e2 e3).profiles OWNER_NAME =
      some (average_embeddings [e1, e2, e3]) ∧
      lookupKey (boot3 e1 e2 e3).disk OWNER_NAME =
        some (average_embeddings [e1, e2, e3]) ∧
      (boot3 e1 e2 e3).ownerEnrolled = true ∧
      (boot3 e1 e2 e3).ownerSamples = []) ∧
    ((identify (boot3 e1 e2 e3) (some e4)).1.speaker = some OWNER_NAME ∧
      (identify (boot3 e1 e2 e3) (some e4)).1.known = true ∧
      (identify (boot3 e1 e2 e3) (some e4)).1.path = RespPath.profileMatch) := by
  have hθb : (0 : ℝ) < AUTO_ENROLL_THRESHOLD := by norm_num [AUTO_ENROLL_THRESHOLD]
  have hθs : (0 : ℝ) < SIMILARITY_THRESHOLD := by norm_num [SIMILARITY_THRESHOLD]
  have hb1 : try_auto_enroll_owner (initial_state : ServiceState V) e1 =
      (true, { (initial_state : ServiceState V) with ownerSamples := [e1] }) :=
    try_auto_first_sample _ _ rfl rfl
  have hs1 : boot1 e1 = ⟨[], [], false, [e1], 0, []⟩ := by
    rw [boot1, identify_bootstrap _ _ rfl (by rw [hb1]), hb1]
    rfl
  have hr1 : (identify (initial_state : ServiceState V) (some e1)).1.speaker =
        some OWNER_NAME ∧
      (identify (initial_state : ServiceState V) (some e1)).1.known = true ∧
      (identify (initial_state : ServiceState V) (some e1)).1.autoEnrolling = true := by
    rw [identify_bootstrap _ _ rfl (by rw [hb1])]
    exact ⟨rfl, rfl, rfl⟩
  have hc2 : AUTO_ENROLL_THRESHOLD ≤ cosine_sim e2 (average_embeddings [e1]) := by
    rw [average_single, cosine_sim_comm]
    exact h12
  have hb2 : try_auto_enroll_owner (⟨[], [], false, [e1], 0, []⟩ : ServiceState V) e2 =
      (true, { (⟨[], [], false, [e1], 0, []⟩ : ServiceState V) with
        ownerSamples := [e1] ++ [e2] }) :=
    try_auto_collect _ _ rfl (by simp) hc2 (by simp [OWNER_ENROLL_SAMPLES])
  have hs2 : boot2 e1 e2 = ⟨[], [], false, [e1, e2], 0, []⟩ := by
    rw [boot2, hs1, identify_bootstrap _ _ rfl (by rw [hb2]), hb2]
    rfl
  have hr2 : (identify (boot1 e1) (some e2)).1.speaker = some OWNER_NAME ∧
      (identify (boot1 e1) (some e2)).1.known = true ∧
      (identify (boot1 e1) (some e2)).1.autoEnrolling = true := by
    rw [hs1, identify_bootstrap _ _ rfl (by rw [hb2])]
    exact ⟨rfl, rfl, rfl⟩
  have hmem3 : ∀ v ∈ [e1, e2], v ≠ 0 ∧ AUTO_ENROLL_THRESHOLD ≤ cosine_sim e3 v := by
    intro v hv
    simp only [List.mem_cons, List.not_mem_nil, or_false] at hv
    rcases hv with hv | hv <;> subst hv
    · exact ⟨h1, by rw [cosine_sim_comm]; exact h13⟩
    · exact ⟨h2, by rw [cosine_sim_comm]; exact h23⟩
  have hc3 : AUTO_ENROLL_THRESHOLD ≤ cosine_sim e3 (average_embeddings [e1, e2]) :=
    cosine_sim_average_ge e3 [e1, e2] hθb h3 (by simp) hmem3
  have hb3 : try_auto_enroll_owner (⟨[], [], false, [e1, e2], 0, []⟩ : ServiceState V) e3 =
      (true, save_profile { (⟨[], [], false, [e1, e2], 0, []⟩ : ServiceState V) with
          ownerEnrolled := true, ownerSamples := [] }
        OWNER_NAME (average_embeddings ([e1, e2] ++ [e3]))) :=
    try_auto_finish _ _ rfl (by simp) hc3 (by simp [OWNER_ENROLL_SAMPLES])
  have hs3 : boot3 e1 e2 e3 =
      ⟨[(OWNER_NAME, average_embeddings [e1, e2, e3])],
       [(OWNER_NAME, average_embeddings [e1, e2, e3])], true, [], 0, []⟩ := by
    rw [boot3, hs2, identify_bootstrap _ _ rfl (by rw [hb3]), hb3]
    rfl
  have hr3 : (identify (boot2 e1 e2) (some e3)).1.speaker = some OWNER_NAME ∧
      (identify (boot2 e1 e2) (some e3)).1.known = true ∧
      (identify (boot2 e1 e2) (some e3)).1.autoEnrolling = true := by
    rw [hs2, identify_bootstrap _ _ rfl (by rw [hb3])]
    exact ⟨rfl, rfl, rfl⟩
  have hmem4 : ∀ v ∈ [e1, e2, e3], v ≠ 0 ∧ SIMILARITY_THRESHOLD ≤ cosine_sim e4 v := by
    intro v hv
    simp only [List.mem_cons, List.not_mem_nil, or_false] at hv
    rcases hv with hv | hv | hv <;> subst hv
    · exact ⟨h1, h41⟩
    · exact ⟨h2, h42⟩
    · exact ⟨h3, h43⟩
  have hc4 : SIMILARITY_THRESHOLD ≤ cosine_sim e4 (average_embeddings [e1, e2, e3]) :=
    cosine_sim_average_ge e4 [e1, e2, e3] hθs h4 (by simp) hmem4
  have hfold4 : List.foldl (best_step e4) ((none : Option String), (0 : ℝ))
      [(OWNER_NAME, average_embeddings [e1, e2, e3])] =
      (some OWNER_NAME, cosine_sim e4 (average_embeddings [e1, e2, e3])) := by
    simp only [List.foldl_cons, List.foldl_nil, best_step]
    rw [if_pos (lt_of_lt_of_le hθs hc4)]
  have hid4 : identify_speaker [(OWNER_NAME, average_embeddings [e1, e2, e3])] e4 =
      (some OWNER_NAME, cosine_sim e4 (average_embeddings [e1, e2, e3])) := by
    rw [identify_speaker_eq_fold, hfold4,
      if_neg (show ¬ ([(OWNER_NAME, average_embeddings [e1, e2, e3])].isEmpty = true)
        by simp),
      if_pos (show SIMILARITY_THRESHOLD ≤
        ((some OWNER_NAME, cosine_sim e4 (average_embeddings [e1, e2, e3])) :
          Option String × ℝ).2 from hc4)]
  have hr4 : (identify (boot3 e1 e2 e3) (some e4)).1.speaker = some OWNER_NAME ∧
      (identify (boot3 e1 e2 e3) (some e4)).1.known = true ∧
      (identify (boot3 e1 e2 e3) (some e4)).1.path = RespPath.profileMatch := by
    rw [hs3, identify_enrolled _ _ rfl,
      identify_step2_match _ _ _ OWNER_NAME _ hid4]
    exact ⟨rfl, rfl, rfl⟩
  refine ⟨hr1, hr2, hr3, ⟨?_, ?_, ?_, ?_⟩, hr4⟩
  · rw [hs3]
    simp [lookupKey]
  · rw [hs3]
    simp [lookupKey]
  · rw [hs3]
  · rw [hs3]

/-- C1 witness: four copies of the unit embedding `1 : ℝ` (pairwise cosine
similarity 1) drive the bootstrap to enrollment and a profile-match on the
fourth call. -/
theorem C1_witness :
    ((1 : ℝ) ≠ 0 ∧
      AUTO_ENROLL_THRESHOLD ≤ cosine_sim (1 : ℝ) 1 ∧
      SIMILARITY_THRESHOLD ≤ cosine_sim (1 : ℝ) 1) ∧
    (lookupKey (boot3 (1 : ℝ) 1 1).profiles OWNER_NAME =
      some (average_embeddings [(1 : ℝ), 1, 1]) ∧
      (boot3 (1 : ℝ) 1 1).ownerEnrolled = true ∧
      (boot3 (1 : ℝ) 1 1).ownerSamples = [] ∧
      (identify (boot3 (1 : ℝ) 1 1) (some 1)).1.speaker = some OWNER_NAME ∧
      (identify (boot3 (1 : ℝ) 1 1) (some 1)).1.known = true ∧
      (identify (boot3 (1 : ℝ) 1 1) (some 1)).1.path = RespPath.profileMatch) := by
  have hb : AUTO_ENROLL_THRESHOLD ≤ cosine_sim (1 : ℝ) 1 := by
    rw [cosine_one_one]
    norm_num [AUTO_ENROLL_THRESHOLD]
  have hsim : SIMILARITY_THRESHOLD ≤ cosine_sim (1 : ℝ) 1 := by
    rw [cosine_one_one]
    norm_num [SIMILARITY_THRESHOLD]
  have h := C1_bootstrap_determinism (1 : ℝ) 1 1 1 one_ne_zero one_ne_zero
    one_ne_zero one_ne_zero hb hb hb hsim hsim hsim
  exact ⟨⟨one_ne_zero, hb, hsim⟩,
    h.2.2.2.1.1, h.2.2.2.1.2.2.1, h.2.2.2.1.2.2.2,
    h.2.2.2.2.1, h.2.2.2.2.2.1, h.2.2.2.2.2.2⟩

end SpeakerService
